import Mathlib

/-!
# Verification of the grader's packaging and container-lifecycle orchestrator

A shallow embedding of `run.py` (functions `grade` and `create_container`).
Filesystem and container-runtime calls are modelled through explicit
boundary structures (`FS`, `Oracle`); the docker daemon's container set is
a `DockerState` threaded through the functions.  Calls that may raise in
Python are modelled by `Bool`-valued success predicates in the `Oracle`,
and a raised exception is an explicit `SubResult.raised` / `.error` value
that propagates exactly as far as the Python exception would.
-/

namespace Grader

/-- Python `s[1:]`: drop the first code point (returns `""` on `""`). -/
def pyDrop1 (s : String) : String := ⟨s.data.drop 1⟩

/-- Helper for `basename`: keep the characters seen since the last `/`. -/
def basenameAux (cur : List Char) : List Char → List Char
  | [] => cur.reverse
  | c :: rest => if c = '/' then basenameAux [] rest else basenameAux (c :: cur) rest

/-- Python `os.path.basename` on POSIX paths: everything after the last `/`. -/
def basename (p : String) : String := ⟨basenameAux [] p.data⟩

/-- Python `re.sub(r'_submit$', '', s)` (run.py line 37): remove a final
`_submit`, if present, at the leftmost (hence only) position where the
anchored pattern matches. -/
def stripSubmitAux : List Char → List Char
  | [] => []
  | c :: rest =>
    if c :: rest = ['_', 's', 'u', 'b', 'm', 'i', 't'] then []
    else c :: stripSubmitAux rest

/-- String form of `stripSubmitAux`. -/
def stripSubmit (s : String) : String := ⟨stripSubmitAux s.data⟩

/-- Python `re.sub(r'(_submit|\.[^\/]+)$', '', user)` (run.py line 57): at the
leftmost position where the anchored alternation matches, remove either a
final `_submit`, or a suffix that starts with a dot, is nonempty after the
dot, and contains no slash.  Both alternatives consume to the end of the
string, so at most one substitution happens. -/
def stripNameAux : List Char → List Char
  | [] => []
  | c :: rest =>
    if c :: rest = ['_', 's', 'u', 'b', 'm', 'i', 't'] then []
    else if c = '.' ∧ rest ≠ [] ∧ ∀ d ∈ rest, d ≠ '/' then []
    else c :: stripNameAux rest

/-- String form of `stripNameAux`: the `user` / displayName derivation. -/
def stripName (s : String) : String := ⟨stripNameAux s.data⟩

/-- Python `"{0}_{1}".format(os.path.basename(folder), user)` (run.py line 61). -/
def containerName (folder file : String) : String :=
  basename folder ++ "_" ++ stripName (basename file)

/-- The lookup comparison `container_name[1:] == name` (run.py line 66):
the reported name has its first character dropped unconditionally. -/
def nameMatches (reported target : String) : Bool := pyDrop1 reported == target

/-- One container as reported by `cli.containers(all=True)`. -/
structure ContainerRecord where
  cid : String
  names : List String
  image : String
deriving DecidableEq, Repr

/-- The container runtime's container set (single source of truth). -/
structure DockerState where
  containers : List ContainerRecord
deriving DecidableEq, Repr

/-- Success/failure of the external calls `run.py` makes, plus the id the
daemon assigns to a newly created container.  A `false` models the call
raising an exception in Python. -/
structure Oracle where
  removeOk : String → Bool
  createOk : String → Bool
  readArchiveOk : String → Bool
  putArchiveOk : String → String → Bool
  makeGzipOk : String → Bool
  newId : String → String

/-- The parameters of the `cli.create_container` call (run.py 84-87). -/
structure CreateRequest where
  image : String
  name : String
  memLimit : String
  networkDisabled : Bool
  tty : Bool
  detach : Bool
  command : String
deriving DecidableEq, Repr

/-- Externally observable effects of one `create_container` call:
creation requests issued, ids of containers actually created, successful
`put_archive` extractions `(containerId, destinationPath, archivePath)` in
call order, and removal attempts `(containerId, force)`.  Both
`put_archive` calls in run.py (lines 92 and 97) pass the fixed destination
`path="/home/"`. -/
structure SubLog where
  creations : List CreateRequest
  createdIds : List String
  puts : List (String × String × String)
  removals : List (String × Bool)
deriving DecidableEq, Repr

/-- The empty effect log. -/
def SubLog.empty : SubLog := ⟨[], [], [], []⟩

/-- The exception kinds that can propagate out of one submission. -/
inductive RunError
  | creationFailed
  | archiveReadFailed (path : String)
  | extractionFailed (path : String)
  | packagingError (path : String)
deriving DecidableEq, Repr

/-- Outcome of `create_container` for one submission.  `raised` models a
Python exception escaping the function (nothing in `grade` catches it). -/
inductive SubResult
  | ok
  | skippedMismatch
  | skippedRemovalFailed
  | raised (e : RunError)
deriving DecidableEq, Repr

/-- How the collision-lookup loop ends. -/
inductive LoopOutcome
  | skipped
  | removalFailed
  | proceed
deriving DecidableEq, Repr

/-- The nested lookup loop of `create_container` (run.py 63-82): scan the
container list in order; at the first container one of whose names matches,
either return (image mismatch, or removal failure) leaving the remaining
list as is, or remove it (`break` leaves the inner name loop only, so the
outer scan continues on the rest).  Returns the surviving containers, the
removal attempts made (always forced), and how the loop ended. -/
def collisionLoop (o : Oracle) (image name : String) :
    List ContainerRecord → List ContainerRecord × List (String × Bool) × LoopOutcome
  | [] => ([], [], .proceed)
  | c :: rest =>
    if c.names.any (fun r => nameMatches r name) then
      if c.image ≠ image then (c :: rest, [], .skipped)
      else if o.removeOk c.cid then
        let t := collisionLoop o image name rest
        (t.1, (c.cid, true) :: t.2.1, t.2.2)
      else (c :: rest, [(c.cid, true)], .removalFailed)
    else
      let t := collisionLoop o image name rest
      (c :: t.1, t.2.1, t.2.2)

/-- Function `create_container(cli, folder, file, image, extra)` (run.py 50-99).
Image-mismatch and removal-failure are handled inside the function
(print + return); creation, archive-read (`gzip.open`/`read`) and
`put_archive` failures raise and are returned as `.raised`. -/
def create_container (o : Oracle) (st : DockerState) (folder file image : String)
    (extra : Option String) : DockerState × SubLog × SubResult :=
  let name := containerName folder file
  let t := collisionLoop o image name st.containers
  match t.2.2 with
  | .skipped => (⟨t.1⟩, ⟨[], [], [], t.2.1⟩, .skippedMismatch)
  | .removalFailed => (⟨t.1⟩, ⟨[], [], [], t.2.1⟩, .skippedRemovalFailed)
  | .proceed =>
    let req : CreateRequest := ⟨image, name, "64m", true, true, true, "/bin/bash"⟩
    if o.createOk name then
      let cid := o.newId name
      let st2 : DockerState := ⟨t.1 ++ [⟨cid, ["/" ++ name], image⟩]⟩
      if o.readArchiveOk file then
        if o.putArchiveOk cid file then
          match extra with
          | none => (st2, ⟨[req], [cid], [(cid, "/home/", file)], t.2.1⟩, .ok)
          | some e =>
            if o.readArchiveOk e then
              if o.putArchiveOk cid e then
                (st2, ⟨[req], [cid],
                  [(cid, "/home/", file), (cid, "/home/", e)], t.2.1⟩, .ok)
              else (st2, ⟨[req], [cid], [(cid, "/home/", file)], t.2.1⟩,
                .raised (.extractionFailed e))
            else (st2, ⟨[req], [cid], [(cid, "/home/", file)], t.2.1⟩,
              .raised (.archiveReadFailed e))
        else (st2, ⟨[req], [cid], [], t.2.1⟩, .raised (.extractionFailed file))
      else (st2, ⟨[req], [cid], [], t.2.1⟩, .raised (.archiveReadFailed file))
    else (⟨t.1⟩, ⟨[req], [], [], t.2.1⟩, .raised .creationFailed)

/-- Docker byte-size string parsing for `mem_limit` (docker-py
`parse_bytes`): binary units, so suffix `m` multiplies by 1024².
Unknown suffixes, which docker-py rejects, are returned unscaled. -/
def parseBytes (s : String) : Nat :=
  let num := (s.data.takeWhile (fun c => c.isDigit)).foldl
    (fun n c => n * 10 + (c.toNat - 48)) 0
  match s.data.dropWhile (fun c => c.isDigit) with
  | ['b'] => num
  | ['k'] => num * 1024
  | ['m'] => num * 1024 * 1024
  | ['g'] => num * 1024 * 1024 * 1024
  | _ => num

/-- The filesystem calls `grade` makes: `os.path.isdir`, `os.path.isfile`,
the first triple of `os.walk` (basenames of the immediate child directories
and files of a folder), and the `mimetypes.guess_type(p)[1] == 'gzip'`
encoding test. -/
structure FS where
  isDir : String → Bool
  isFile : String → Bool
  children : String → List String × List String
  isGzip : String → Bool

/-- The parsed command-line arguments consumed by `grade`. -/
structure Args where
  folder : String
  image : String
  extra : Option String

/-- Modelled from the spec: `make_gzip` is imported from the repository's
`utils` module, which is not among the provided source files.  Spec §4.1
(Archive Normalizer): given a path and an optional override name it writes
a new gzip archive "adjacent to or under a temp directory" and returns its
path; directories are packaged and plain files wrapped.  We model the
returned path as a fresh file under a temp directory, named after the
override name (or the source basename) with an archive extension — which
makes the spec's `bob_submit` directory example come out as displayName
`bob` downstream. -/
def make_gzip (path : String) (nameO : Option String) : String :=
  "/tmp/grader/" ++ (match nameO with | some n => n | none => basename path) ++ ".tar.gz"

/-- The archive `grade` builds for a directory submission `d` of `dirpath`
(run.py 36-38): `make_gzip(folder, re.sub(r'_submit$', '', basename(folder)))`. -/
def dirArchive (dirpath d : String) : String :=
  make_gzip (dirpath ++ "/" ++ d) (some (stripSubmit (basename (dirpath ++ "/" ++ d))))

/-- The orchestrator's running accumulation: docker state, the `cleanup`
list of temporary archives, the merged effect log, and the per-submission
results `(submissionPath, result)` in processing order. -/
structure Acc where
  state : DockerState
  cleanup : List String
  log : SubLog
  results : List (String × SubResult)
deriving DecidableEq, Repr

/-- Concatenate two effect logs in order. -/
def mergeLog (a b : SubLog) : SubLog :=
  ⟨a.creations ++ b.creations, a.createdIds ++ b.createdIds,
    a.puts ++ b.puts, a.removals ++ b.removals⟩

/-- The directory loop of `grade` (run.py 35-39).  A `make_gzip` failure or
a raised error from `create_container` propagates (`.error`), aborting the
remaining submissions; skip outcomes continue. -/
def processDirs (o : Oracle) (dirpath image : String) (extra : Option String) :
    List String → Acc → Except (RunError × Acc) Acc
  | [], acc => .ok acc
  | d :: rest, acc =>
    let full := dirpath ++ "/" ++ d
    if o.makeGzipOk full then
      let arch := dirArchive dirpath d
      let r := create_container o acc.state dirpath arch image extra
      let acc2 : Acc := ⟨r.1, acc.cleanup ++ [arch], mergeLog acc.log r.2.1,
        acc.results ++ [(full, r.2.2)]⟩
      match r.2.2 with
      | .raised e => .error (e, acc2)
      | _ => processDirs o dirpath image extra rest acc2
    else .error (.packagingError full, acc)

/-- The file loop of `grade` (run.py 42-44): files are assumed gzips and
passed to `create_container` unwrapped and never added to `cleanup`. -/
def processFiles (o : Oracle) (dirpath image : String) (extra : Option String) :
    List String → Acc → Except (RunError × Acc) Acc
  | [], acc => .ok acc
  | f :: rest, acc =>
    let full := dirpath ++ "/" ++ f
    let r := create_container o acc.state dirpath full image extra
    let acc2 : Acc := ⟨r.1, acc.cleanup, mergeLog acc.log r.2.1,
      acc.results ++ [(full, r.2.2)]⟩
    match r.2.2 with
    | .raised e => .error (e, acc2)
    | _ => processFiles o dirpath image extra rest acc2

/-- How a whole run ends. -/
inductive GradeOutcome
  | invalidFolder
  | invalidExtra
  | raised (e : RunError)
  | done
deriving DecidableEq, Repr

/-- The observable result of a whole `grade` run: final docker state, the
merged effect log, the accumulated temporary-archive list, the files the
run deleted at the end (`os.remove` loop, reached only when no exception
escaped), and the per-submission results. -/
structure RunResult where
  outcome : GradeOutcome
  state : DockerState
  log : SubLog
  cleanup : List String
  removed : List String
  results : List (String × SubResult)
deriving DecidableEq, Repr

/-- The body of `grade` after input validation and extra-wrapping
(run.py 29-48): scan one level, process directories then files, and run
the cleanup loop only if nothing raised. -/
def gradeBody (o : Oracle) (fs : FS) (st0 : DockerState) (folder image : String)
    (extra : Option String) (cleanup0 : List String) : RunResult :=
  let scan := fs.children folder
  let acc0 : Acc := ⟨st0, cleanup0, SubLog.empty, []⟩
  match processDirs o folder image extra scan.1 acc0 with
  | .error p => ⟨.raised p.1, p.2.state, p.2.log, p.2.cleanup, [], p.2.results⟩
  | .ok acc1 =>
    match processFiles o folder image extra scan.2 acc1 with
    | .error p => ⟨.raised p.1, p.2.state, p.2.log, p.2.cleanup, [], p.2.results⟩
    | .ok acc2 => ⟨.done, acc2.state, acc2.log, acc2.cleanup, acc2.cleanup, acc2.results⟩

/-- Function `grade(args, cli)` (run.py 11-48).  The folder must be a directory and
the extra path, if given, must satisfy `os.path.isfile`; a non-gzip (or
directory — unreachable after `isfile`) extra is wrapped once by
`make_gzip` and added to `cleanup` before any submission is processed. -/
def grade (o : Oracle) (fs : FS) (st0 : DockerState) (args : Args) : RunResult :=
  if fs.isDir args.folder = false then
    ⟨.invalidFolder, st0, SubLog.empty, [], [], []⟩
  else
    match args.extra with
    | none => gradeBody o fs st0 args.folder args.image none []
    | some e =>
      if fs.isFile e = false then ⟨.invalidExtra, st0, SubLog.empty, [], [], []⟩
      else if fs.isDir e || !(fs.isGzip e) then
        if o.makeGzipOk e then
          gradeBody o fs st0 args.folder args.image (some (make_gzip e none))
            [make_gzip e none]
        else ⟨.raised (.packagingError e), st0, SubLog.empty, [], [], []⟩
      else gradeBody o fs st0 args.folder args.image (some e) []

/-! ## Shared concrete fixtures -/

/-- An oracle on which every external call succeeds and the daemon assigns
a container's name as its id. -/
def oAll : Oracle :=
  ⟨fun _ => true, fun _ => true, fun _ => true, fun _ _ => true, fun _ => true,
    fun n => n⟩

/-- A docker state holding one container named `/HW8_alice` built from an
image other than the one the run is invoked with. -/
def stMismatch : DockerState := ⟨[⟨"c1", ["/HW8_alice"], "other-image"⟩]⟩

/-! ## Theorems -/

/-- Iterated re-runs of `create_container` on the same submission:
the docker state after `n` repetitions. -/
def runStateN (o : Oracle) (folder file image : String) (extra : Option String) :
    Nat → DockerState → DockerState
  | 0, st => st
  | n + 1, st =>
    runStateN o folder file image extra n (create_container o st folder file image extra).1

/-- C9: the lookup comparison drops exactly the first character of every
name the runtime reports, unconditionally: a reported name that is the
target preceded by any single character matches, and a reported name equal
to the (nonempty) target itself does not match. -/
theorem lookup_drops_first_char :
    (∀ (c : Char) (t : String), nameMatches ⟨c :: t.data⟩ t = true)
      ∧ ∀ t : String, t ≠ "" → nameMatches t t = false := by
  constructor
  · intro c t
    simp [nameMatches, pyDrop1]
  · intro t ht
    obtain ⟨l⟩ := t
    cases l with
    | nil => exact absurd rfl ht
    | cons x xs =>
      simp [nameMatches, pyDrop1]
      intro h
      exact List.cons_ne_self x xs (congrArg String.data h).symm

/-- Witness for C9 at the concrete target `"HW8_bob"`: the slash-prefixed
report matches and the bare report does not. -/
theorem lookup_drops_first_char_witness :
    nameMatches ⟨'/' :: "HW8_bob".data⟩ "HW8_bob" = true
      ∧ ("HW8_bob" : String) ≠ "" ∧ nameMatches "HW8_bob" "HW8_bob" = false :=
  ⟨lookup_drops_first_char.1 '/' "HW8_bob",
    by decide, lookup_drops_first_char.2 "HW8_bob" (by decide)⟩

/-- C3 counterexample: for the submission file `alice_submit.tar.gz` the
code's derivation (run.py line 57) strips the suffix starting at the first
dot, yielding displayName `alice_submit` and container name
`HW8_alice_submit`, not the claimed `alice` / `HW8_alice`. -/
theorem displayName_alice_counterexample :
    stripName (basename "HW8/alice_submit.tar.gz") = "alice_submit"
      ∧ stripName (basename "HW8/alice_submit.tar.gz") ≠ "alice"
      ∧ (create_container oAll ⟨[]⟩ "HW8" "HW8/alice_submit.tar.gz" "img" none).2.1.creations.map
          (fun r => r.name) = ["HW8_alice_submit"] := by
  refine ⟨by decide, by decide, by decide⟩

/-- C3 as amended: the displayName is the basename with one substitution
at the leftmost position where the anchored pattern matches — either a
final `_submit` segment or a dot-to-end suffix (starting at the *first*
dot whose remainder has no slash).  `alice_submit.tar.gz` therefore yields
`alice_submit`; `carol.zip` yields `carol`; a directory `bob_submit` is
first archived under its `_submit`-stripped basename and so yields `bob`;
and the container name is a pure function of the batch folder's basename
and the submission path. -/
theorem displayName_derivation (f1 f2 p : String) (h : basename f1 = basename f2) :
    containerName f1 p = containerName f2 p
      ∧ stripName "alice_submit.tar.gz" = "alice_submit"
      ∧ stripName "carol.zip" = "carol"
      ∧ dirArchive "HW8" "bob_submit" = "/tmp/grader/bob.tar.gz"
      ∧ containerName "HW8" (dirArchive "HW8" "bob_submit") = "HW8_bob" := by
  refine ⟨by simp [containerName, h], by decide, by decide, by decide, by decide⟩

/-- Witness for the amended C3: two spellings of the batch folder with the
same basename give the same container name for `carol.zip`. -/
theorem displayName_derivation_witness :
    basename "course/HW8" = basename "HW8"
      ∧ containerName "course/HW8" "HW8/carol.zip" = containerName "HW8" "HW8/carol.zip"
      ∧ containerName "HW8" "HW8/carol.zip" = "HW8_carol" :=
  ⟨by decide,
    (displayName_derivation "course/HW8" "HW8" "HW8/carol.zip" (by decide)).1,
    by decide⟩

/-- A filesystem whose batch folder `/hw` is valid and whose extra path
`/extra_dir` is an existing directory (so not a regular file). -/
def fsDirExtra : FS :=
  ⟨fun p => p == "/hw" || p == "/extra_dir", fun _ => false,
    fun _ => ([], []), fun _ => false⟩

/-- C7: with an extra path that is an existing directory, `grade` aborts
the whole run at the `os.path.isfile` guard (run.py line 18) before any
archive or container work — although the claim (and the unreachable
`os.path.isdir(args.extra)` branch on line 23) say a directory extra
should be normalized into an archive. -/
theorem directory_extra_aborts_run :
    grade oAll fsDirExtra ⟨[]⟩ ⟨"/hw", "img", some "/extra_dir"⟩
        = ⟨.invalidExtra, ⟨[]⟩, SubLog.empty, [], [], []⟩
      ∧ fsDirExtra.isDir "/extra_dir" = true := by
  refine ⟨by decide, by decide⟩

/-- Helper: when every container whose reported names match carries a
different image, the lookup loop stops at the first match, skips, and
leaves the container list exactly as it was, attempting no removal. -/
lemma collisionLoop_all_mismatch (o : Oracle) (image name : String)
    (cs : List ContainerRecord)
    (h1 : ∃ c ∈ cs, c.names.any (fun r => nameMatches r name) = true)
    (h2 : ∀ c ∈ cs, c.names.any (fun r => nameMatches r name) = true →
      c.image ≠ image) :
    collisionLoop o image name cs = (cs, [], .skipped) := by
  induction cs with
  | nil => rcases h1 with ⟨c, hc, -⟩; cases hc
  | cons c rest ih =>
    by_cases hm : c.names.any (fun r => nameMatches r name) = true
    · have himg := h2 c (by simp) hm
      simp [collisionLoop, hm, himg]
    · have h1' : ∃ d ∈ rest, d.names.any (fun r => nameMatches r name) = true := by
        rcases h1 with ⟨d, hd, hdm⟩
        rcases List.mem_cons.mp hd with rfl | hd'
        · exact absurd hdm hm
        · exact ⟨d, hd', hdm⟩
      have hrec := ih h1' (fun d hd hdm => h2 d (List.mem_cons_of_mem _ hd) hdm)
      simp [collisionLoop, hm, hrec]

/-- C1: if every container whose (first-character-stripped) reported name
equals the derived container name was built from a different image, the
submission is skipped: the docker state is returned unchanged, no removal
is attempted, nothing is created, the outcome is the non-raising
`skippedMismatch`, and any number of repeated runs leaves the state
unchanged. -/
theorem image_mismatch_never_clobbers (o : Oracle) (st : DockerState)
    (folder file image : String) (extra : Option String)
    (h1 : ∃ c ∈ st.containers,
      c.names.any (fun r => nameMatches r (containerName folder file)) = true)
    (h2 : ∀ c ∈ st.containers,
      c.names.any (fun r => nameMatches r (containerName folder file)) = true →
        c.image ≠ image) :
    create_container o st folder file image extra = (st, SubLog.empty, .skippedMismatch)
      ∧ ∀ n, runStateN o folder file image extra n st = st := by
  have hloop := collisionLoop_all_mismatch o image (containerName folder file)
    st.containers h1 h2
  have hcc : create_container o st folder file image extra
      = (st, SubLog.empty, .skippedMismatch) := by
    simp [create_container, hloop, SubLog.empty]
  refine ⟨hcc, fun n => ?_⟩
  induction n with
  | zero => rfl
  | succ n ih => simp [runStateN, hcc, ih]

/-- Witness for C1: a pre-existing `/HW8_alice` container from
`other-image` survives a run (and three repeated runs) invoked with image
`img`. -/
theorem image_mismatch_never_clobbers_witness :
    create_container oAll stMismatch "HW8" "HW8/alice.tar.gz" "img" none
        = (stMismatch, SubLog.empty, .skippedMismatch)
      ∧ ∀ n, runStateN oAll "HW8" "HW8/alice.tar.gz" "img" none n stMismatch
        = stMismatch :=
  image_mismatch_never_clobbers oAll stMismatch "HW8" "HW8/alice.tar.gz" "img" none
    (by decide) (by decide)

/-- Helper: when the first name-matching container carries the invoked
image but its forced removal fails, the lookup loop returns the container
list unchanged with exactly that one forced removal attempt recorded. -/
lemma collisionLoop_removal_failed (o : Oracle) (image name : String)
    (pre : List ContainerRecord) (c : ContainerRecord) (post : List ContainerRecord)
    (hpre : ∀ c' ∈ pre, c'.names.any (fun r => nameMatches r name) = false)
    (hc : c.names.any (fun r => nameMatches r name) = true)
    (himg : c.image = image) (hrm : o.removeOk c.cid = false) :
    collisionLoop o image name (pre ++ c :: post)
      = (pre ++ c :: post, [(c.cid, true)], .removalFailed) := by
  induction pre with
  | nil => simp [collisionLoop, hc, himg, hrm]
  | cons p ps ih =>
    have hp := hpre p (by simp)
    have hrec := ih (fun q hq => hpre q (by simp [hq]))
    simp [collisionLoop, hp, hrec]

/-- C4: when an existing container with the derived name was built from
the invoked image, forced removal is attempted; if it fails, the
submission reports `skippedRemovalFailed`, the docker state (existing
container included) is unchanged, no container is created, and the batch
loop simply moves on to the remaining submissions. -/
theorem removal_failure_abandons_submission (o : Oracle) (dirpath image f : String)
    (extra : Option String) (rest : List String) (acc : Acc)
    (pre post : List ContainerRecord) (c : ContainerRecord)
    (hst : acc.state.containers = pre ++ c :: post)
    (hpre : ∀ c' ∈ pre, c'.names.any
      (fun r => nameMatches r (containerName dirpath (dirpath ++ "/" ++ f))) = false)
    (hc : c.names.any
      (fun r => nameMatches r (containerName dirpath (dirpath ++ "/" ++ f))) = true)
    (himg : c.image = image) (hrm : o.removeOk c.cid = false) :
    create_container o acc.state dirpath (dirpath ++ "/" ++ f) image extra
        = (acc.state, ⟨[], [], [], [(c.cid, true)]⟩, .skippedRemovalFailed)
      ∧ processFiles o dirpath image extra (f :: rest) acc
        = processFiles o dirpath image extra rest
            ⟨acc.state, acc.cleanup, mergeLog acc.log ⟨[], [], [], [(c.cid, true)]⟩,
              acc.results ++ [(dirpath ++ "/" ++ f, .skippedRemovalFailed)]⟩ := by
  have hloop := collisionLoop_removal_failed o image
    (containerName dirpath (dirpath ++ "/" ++ f)) pre c post hpre hc himg hrm
  have hcc : create_container o acc.state dirpath (dirpath ++ "/" ++ f) image extra
      = (acc.state, ⟨[], [], [], [(c.cid, true)]⟩, .skippedRemovalFailed) := by
    simp [create_container, hst, hloop]
    rw [← hst]
  refine ⟨hcc, ?_⟩
  simp [processFiles, hcc]

/-- An oracle on which every container removal fails and everything else
succeeds. -/
def oRemoveFail : Oracle :=
  ⟨fun _ => false, fun _ => true, fun _ => true, fun _ _ => true, fun _ => true,
    fun n => n⟩

/-- A pre-existing container that owns the name `hw_s1` under image `img`. -/
def cOwned : ContainerRecord := ⟨"c1", ["/hw_s1"], "img"⟩

/-- A batch accumulator whose docker state holds just `cOwned`. -/
def accOwned : Acc := ⟨⟨[cOwned]⟩, [], SubLog.empty, []⟩

/-- Witness for C4: removal of the same-image container `c1` fails, the
submission `s1.gz` is abandoned with the state untouched, and the file
loop continues with the rest of the batch. -/
theorem removal_failure_abandons_submission_witness :
    create_container oRemoveFail accOwned.state "/hw" ("/hw" ++ "/" ++ "s1.gz") "img" none
        = (accOwned.state, ⟨[], [], [], [(cOwned.cid, true)]⟩, .skippedRemovalFailed)
      ∧ processFiles oRemoveFail "/hw" "img" none ("s1.gz" :: ["s2.gz"]) accOwned
        = processFiles oRemoveFail "/hw" "img" none ["s2.gz"]
            ⟨accOwned.state, accOwned.cleanup,
              mergeLog accOwned.log ⟨[], [], [], [(cOwned.cid, true)]⟩,
              accOwned.results ++ [("/hw" ++ "/" ++ "s1.gz", .skippedRemovalFailed)]⟩ :=
  removal_failure_abandons_submission oRemoveFail "/hw" "img" "s1.gz" none ["s2.gz"]
    accOwned [] [] cOwned (by decide) (by simp) (by decide) (by decide) (by decide)

/-- C6: whenever `create_container` reaches the creation step, the one
creation request it issues is for the invoked image, with the derived
container name, host-config memory limit `'64m'` (which docker parses in
binary units to exactly 64 MiB), network disabled, a tty, detached, and
`/bin/bash` as the command. -/
theorem creation_parameters (o : Oracle) (st : DockerState)
    (folder file image : String) (extra : Option String)
    (hp : (collisionLoop o image (containerName folder file) st.containers).2.2
      = .proceed) :
    (create_container o st folder file image extra).2.1.creations
        = [⟨image, containerName folder file, "64m", true, true, true, "/bin/bash"⟩]
      ∧ parseBytes "64m" = 64 * 1024 * 1024 := by
  refine ⟨?_, by decide⟩
  simp only [create_container, hp]
  repeat' split
  all_goals rfl

/-- Witness for C6 on an empty docker state: the lookup proceeds and the
creation request carries the fixed parameters. -/
theorem creation_parameters_witness :
    (collisionLoop oAll "img" (containerName "/hw" "/hw/s1.gz") []).2.2 = .proceed
      ∧ (create_container oAll ⟨[]⟩ "/hw" "/hw/s1.gz" "img" none).2.1.creations
        = [⟨"img", containerName "/hw" "/hw/s1.gz", "64m", true, true, true, "/bin/bash"⟩]
      ∧ parseBytes "64m" = 64 * 1024 * 1024 :=
  ⟨by decide,
    (creation_parameters oAll ⟨[]⟩ "/hw" "/hw/s1.gz" "img" none (by decide)).1,
    (creation_parameters oAll ⟨[]⟩ "/hw" "/hw/s1.gz" "img" none (by decide)).2⟩

/-- Oracles on which no modelled Python exception occurs: creation,
archive reads, `put_archive` and `make_gzip` all succeed.  Removal may
still fail and arbitrary containers may pre-exist, so image-mismatch skips
and removal failures remain possible. -/
def Oracle.NoRaise (o : Oracle) : Prop :=
  (∀ s, o.createOk s = true) ∧ (∀ s, o.readArchiveOk s = true)
    ∧ (∀ c p, o.putArchiveOk c p = true) ∧ ∀ s, o.makeGzipOk s = true

/-- Helper: under a `NoRaise` oracle, `create_container` never raises. -/
lemma create_container_noRaise (o : Oracle) (h : o.NoRaise) (st : DockerState)
    (folder file image : String) (extra : Option String) :
    ∀ e, (create_container o st folder file image extra).2.2 ≠ SubResult.raised e := by
  rcases h with ⟨hc, hr, hp, -⟩
  intro e
  cases hout : (collisionLoop o image (containerName folder file) st.containers).2.2 <;>
    cases extra <;> simp [create_container, hout, hc, hr, hp]

/-- Every container id in `createdIds` had the extra archive `e2`
extracted into the fixed home directory `/home/` *after* its own
submission archive was extracted into the same `/home/`: the two
`put_archive` records occur in that order in the log. -/
def extraAppliedAfter (e2 : String) (lg : SubLog) : Prop :=
  ∀ cid ∈ lg.createdIds, ∃ sub,
    List.Sublist [(cid, "/home/", sub), (cid, "/home/", e2)] lg.puts

/-- Every `put_archive` call recorded in the log targeted the fixed home
directory `/home/` inside the container. -/
def putsFixedHome (lg : SubLog) : Prop :=
  lg.puts.all (fun q => q.2.1 == "/home/") = true

/-- Helper: `extraAppliedAfter` is preserved by log concatenation. -/
lemma extraAppliedAfter_merge (e2 : String) (a b : SubLog)
    (ha : extraAppliedAfter e2 a) (hb : extraAppliedAfter e2 b) :
    extraAppliedAfter e2 (mergeLog a b) := by
  intro cid hcid
  simp only [mergeLog] at hcid ⊢
  rcases List.mem_append.mp hcid with h | h
  · obtain ⟨sub, hs⟩ := ha cid h
    exact ⟨sub, hs.trans (List.sublist_append_left _ _)⟩
  · obtain ⟨sub, hs⟩ := hb cid h
    exact ⟨sub, hs.trans (List.sublist_append_right _ _)⟩

/-- Helper: `putsFixedHome` is preserved by log concatenation. -/
lemma putsFixedHome_merge (a b : SubLog)
    (ha : putsFixedHome a) (hb : putsFixedHome b) :
    putsFixedHome (mergeLog a b) := by
  simp only [putsFixedHome, mergeLog, List.all_append, Bool.and_eq_true] at *
  exact ⟨ha, hb⟩

/-- Helper: under a `NoRaise` oracle, any container created by a
`create_container` call with a configured extra archive received its own
submission archive and then the extra archive, both into `/home/`. -/
lemma create_container_extra_applied (o : Oracle) (h : o.NoRaise) (st : DockerState)
    (folder file image e2 : String) :
    extraAppliedAfter e2 (create_container o st folder file image (some e2)).2.1 := by
  rcases h with ⟨hc, hr, hp, -⟩
  intro cid hcid
  cases hout : (collisionLoop o image (containerName folder file) st.containers).2.2 with
  | skipped => simp [create_container, hout] at hcid
  | removalFailed => simp [create_container, hout] at hcid
  | proceed =>
    simp only [create_container, hout, hc, hr, hp, if_true] at hcid ⊢
    simp at hcid
    subst hcid
    exact ⟨file, List.Sublist.refl _⟩

/-- Helper: every `put_archive` issued by `create_container` targets the
fixed home directory `/home/`. -/
lemma create_container_puts_home (o : Oracle) (st : DockerState)
    (folder file image : String) (extra : Option String) :
    putsFixedHome (create_container o st folder file image extra).2.1 := by
  simp only [putsFixedHome, create_container]
  repeat' split
  all_goals simp

/-- Helper: one non-raising step of the file loop just accumulates and
moves on. -/
lemma processFiles_cons_not_raised (o : Oracle) (dirpath image : String)
    (extra : Option String) (f : String) (rest : List String) (acc : Acc)
    (hnr : ∀ e, (create_container o acc.state dirpath (dirpath ++ "/" ++ f)
      image extra).2.2 ≠ SubResult.raised e) :
    processFiles o dirpath image extra (f :: rest) acc
      = processFiles o dirpath image extra rest
          ⟨(create_container o acc.state dirpath (dirpath ++ "/" ++ f) image extra).1,
            acc.cleanup,
            mergeLog acc.log
              (create_container o acc.state dirpath (dirpath ++ "/" ++ f) image extra).2.1,
            acc.results ++ [(dirpath ++ "/" ++ f,
              (create_container o acc.state dirpath (dirpath ++ "/" ++ f)
                image extra).2.2)]⟩ := by
  cases hout : (create_container o acc.state dirpath (dirpath ++ "/" ++ f)
      image extra).2.2 with
  | raised e => exact absurd hout (hnr e)
  | ok => simp [processFiles, hout]
  | skippedMismatch => simp [processFiles, hout]
  | skippedRemovalFailed => simp [processFiles, hout]

/-- Helper: one non-raising step of the directory loop packages the
directory, appends the archive to `cleanup`, and moves on. -/
lemma processDirs_cons_not_raised (o : Oracle) (dirpath image : String)
    (extra : Option String) (d : String) (rest : List String) (acc : Acc)
    (hmk : o.makeGzipOk (dirpath ++ "/" ++ d) = true)
    (hnr : ∀ e, (create_container o acc.state dirpath (dirArchive dirpath d)
      image extra).2.2 ≠ SubResult.raised e) :
    processDirs o dirpath image extra (d :: rest) acc
      = processDirs o dirpath image extra rest
          ⟨(create_container o acc.state dirpath (dirArchive dirpath d) image extra).1,
            acc.cleanup ++ [dirArchive dirpath d],
            mergeLog acc.log
              (create_container o acc.state dirpath (dirArchive dirpath d) image extra).2.1,
            acc.results ++ [(dirpath ++ "/" ++ d,
              (create_container o acc.state dirpath (dirArchive dirpath d)
                image extra).2.2)]⟩ := by
  cases hout : (create_container o acc.state dirpath (dirArchive dirpath d)
      image extra).2.2 with
  | raised e => exact absurd hout (hnr e)
  | ok => simp [processDirs, hmk, hout]
  | skippedMismatch => simp [processDirs, hmk, hout]
  | skippedRemovalFailed => simp [processDirs, hmk, hout]

/-- Helper: under a `NoRaise` oracle the file loop completes on every
input, leaves `cleanup` alone, appends one result per file in order, and
preserves "every container created so far got the extra archive". -/
lemma processFiles_noRaise (o : Oracle) (h : o.NoRaise) (dirpath image : String)
    (extra : Option String) :
    ∀ (fsL : List String) (acc : Acc), ∃ acc',
      processFiles o dirpath image extra fsL acc = .ok acc'
        ∧ acc'.cleanup = acc.cleanup
        ∧ acc'.results.map Prod.fst
          = acc.results.map Prod.fst ++ fsL.map (fun f => dirpath ++ "/" ++ f)
        ∧ (∀ e2, extra = some e2 →
            extraAppliedAfter e2 acc.log → extraAppliedAfter e2 acc'.log)
        ∧ (putsFixedHome acc.log → putsFixedHome acc'.log) := by
  intro fsL
  induction fsL with
  | nil =>
    exact fun acc => ⟨acc, rfl, rfl, by simp, fun e2 _ hin => hin, fun hh => hh⟩
  | cons f rest ih =>
    intro acc
    have hnr := create_container_noRaise o h acc.state dirpath
      (dirpath ++ "/" ++ f) image extra
    have hstep := processFiles_cons_not_raised o dirpath image extra f rest acc hnr
    obtain ⟨acc', hok, hclean, hres, hputs, hhome⟩ := ih
      ⟨(create_container o acc.state dirpath (dirpath ++ "/" ++ f) image extra).1,
        acc.cleanup,
        mergeLog acc.log
          (create_container o acc.state dirpath (dirpath ++ "/" ++ f) image extra).2.1,
        acc.results ++ [(dirpath ++ "/" ++ f,
          (create_container o acc.state dirpath (dirpath ++ "/" ++ f) image extra).2.2)]⟩
    refine ⟨acc', hstep.trans hok, hclean, ?_, ?_, ?_⟩
    · simp only [hres]
      simp
    · intro e2 hx hbase
      refine hputs e2 hx ?_
      subst hx
      exact extraAppliedAfter_merge e2 acc.log _ hbase
        (create_container_extra_applied o h acc.state dirpath
          (dirpath ++ "/" ++ f) image e2)
    · intro hbase
      exact hhome (putsFixedHome_merge acc.log _ hbase
        (create_container_puts_home o acc.state dirpath
          (dirpath ++ "/" ++ f) image extra))

/-- Helper: under a `NoRaise` oracle the directory loop completes on every
input, appends exactly the per-directory archives to `cleanup`, appends
one result per directory in order, and preserves the extra-applied
invariant. -/
lemma processDirs_noRaise (o : Oracle) (h : o.NoRaise) (dirpath image : String)
    (extra : Option String) :
    ∀ (ds : List String) (acc : Acc), ∃ acc',
      processDirs o dirpath image extra ds acc = .ok acc'
        ∧ acc'.cleanup = acc.cleanup ++ ds.map (dirArchive dirpath)
        ∧ acc'.results.map Prod.fst
          = acc.results.map Prod.fst ++ ds.map (fun d => dirpath ++ "/" ++ d)
        ∧ (∀ e2, extra = some e2 →
            extraAppliedAfter e2 acc.log → extraAppliedAfter e2 acc'.log)
        ∧ (putsFixedHome acc.log → putsFixedHome acc'.log) := by
  intro ds
  induction ds with
  | nil =>
    exact fun acc => ⟨acc, rfl, by simp, by simp, fun e2 _ hin => hin, fun hh => hh⟩
  | cons d rest ih =>
    intro acc
    have hnr := create_container_noRaise o h acc.state dirpath
      (dirArchive dirpath d) image extra
    have hstep := processDirs_cons_not_raised o dirpath image extra d rest acc
      (h.2.2.2 (dirpath ++ "/" ++ d)) hnr
    obtain ⟨acc', hok, hclean, hres, hputs, hhome⟩ := ih
      ⟨(create_container o acc.state dirpath (dirArchive dirpath d) image extra).1,
        acc.cleanup ++ [dirArchive dirpath d],
        mergeLog acc.log
          (create_container o acc.state dirpath (dirArchive dirpath d) image extra).2.1,
        acc.results ++ [(dirpath ++ "/" ++ d,
          (create_container o acc.state dirpath (dirArchive dirpath d) image extra).2.2)]⟩
    refine ⟨acc', hstep.trans hok, ?_, ?_, ?_, ?_⟩
    · simp only [hclean]
      simp
    · simp only [hres]
      simp
    · intro e2 hx hbase
      refine hputs e2 hx ?_
      subst hx
      exact extraAppliedAfter_merge e2 acc.log _ hbase
        (create_container_extra_applied o h acc.state dirpath
          (dirArchive dirpath d) image e2)
    · intro hbase
      exact hhome (putsFixedHome_merge acc.log _ hbase
        (create_container_puts_home o acc.state dirpath
          (dirArchive dirpath d) image extra))

/-- The archive path `grade` actually passes on as the extra payload:
unchanged for a gzip file, wrapped by `make_gzip` otherwise (run.py 22-26). -/
def effectiveExtra (fs : FS) (x : Option String) : Option String :=
  match x with
  | none => none
  | some e => if fs.isDir e || !(fs.isGzip e) then some (make_gzip e none) else some e

/-- The cleanup obligations `grade` has accumulated before scanning: the
wrapped extra archive, when one was produced. -/
def initialCleanup (fs : FS) (x : Option String) : List String :=
  match x with
  | none => []
  | some e => if fs.isDir e || !(fs.isGzip e) then [make_gzip e none] else []

/-- Helper: on valid inputs whose extra (if any) wraps successfully,
`grade` is `gradeBody` on the effective extra and its cleanup obligation. -/
lemma grade_valid_eq (o : Oracle) (fs : FS) (st : DockerState) (args : Args)
    (hf : fs.isDir args.folder = true)
    (hx : ∀ e, args.extra = some e → fs.isFile e = true)
    (hmk : ∀ e, args.extra = some e → o.makeGzipOk e = true) :
    grade o fs st args = gradeBody o fs st args.folder args.image
      (effectiveExtra fs args.extra) (initialCleanup fs args.extra) := by
  cases hxe : args.extra with
  | none => simp [grade, hf, effectiveExtra, initialCleanup, hxe]
  | some e =>
    by_cases hb : (fs.isDir e || !(fs.isGzip e)) = true
    · simp [grade, hf, hx e hxe, hmk e hxe, effectiveExtra, initialCleanup, hxe, hb]
    · simp [grade, hf, hx e hxe, effectiveExtra, initialCleanup, hxe, hb]

/-- Helper: under a `NoRaise` oracle, `gradeBody` finishes the batch,
deletes exactly its accumulated cleanup list (the initial obligation plus
one archive per directory submission), reports one result per submission
in scan order, and has applied the effective extra to every container it
created. -/
lemma gradeBody_noRaise (o : Oracle) (h : o.NoRaise) (fs : FS) (st0 : DockerState)
    (folder image : String) (extra : Option String) (cleanup0 : List String) :
    (gradeBody o fs st0 folder image extra cleanup0).outcome = .done
      ∧ (gradeBody o fs st0 folder image extra cleanup0).removed
        = (gradeBody o fs st0 folder image extra cleanup0).cleanup
      ∧ (gradeBody o fs st0 folder image extra cleanup0).cleanup
        = cleanup0 ++ (fs.children folder).1.map (dirArchive folder)
      ∧ (gradeBody o fs st0 folder image extra cleanup0).results.map Prod.fst
        = (fs.children folder).1.map (fun d => folder ++ "/" ++ d)
          ++ (fs.children folder).2.map (fun f => folder ++ "/" ++ f)
      ∧ (∀ e2, extra = some e2 →
          extraAppliedAfter e2 (gradeBody o fs st0 folder image extra cleanup0).log)
      ∧ putsFixedHome (gradeBody o fs st0 folder image extra cleanup0).log := by
  obtain ⟨acc1, hd, hdclean, hdres, hdputs, hdhome⟩ := processDirs_noRaise o h folder
    image extra (fs.children folder).1 ⟨st0, cleanup0, SubLog.empty, []⟩
  obtain ⟨acc2, hfok, hfclean, hfres, hfputs, hfhome⟩ := processFiles_noRaise o h folder
    image extra (fs.children folder).2 acc1
  have hgb : gradeBody o fs st0 folder image extra cleanup0
      = ⟨.done, acc2.state, acc2.log, acc2.cleanup, acc2.cleanup, acc2.results⟩ := by
    simp [gradeBody, hd, hfok]
  rw [hgb]
  refine ⟨rfl, rfl, ?_, ?_, ?_, ?_⟩
  · rw [hfclean, hdclean]
  · rw [hfres, hdres]
    simp
  · intro e2 hx
    refine hfputs e2 hx (hdputs e2 hx ?_)
    intro c' hc'
    simp [SubLog.empty] at hc'
  · exact hfhome (hdhome rfl)

/-- Helper: combined guarantees of a whole `grade` run on valid inputs
under a `NoRaise` oracle. -/
lemma grade_noRaise (o : Oracle) (h : o.NoRaise) (fs : FS) (st : DockerState)
    (args : Args) (hf : fs.isDir args.folder = true)
    (hx : ∀ e, args.extra = some e → fs.isFile e = true) :
    (grade o fs st args).outcome = .done
      ∧ (grade o fs st args).removed = (grade o fs st args).cleanup
      ∧ (grade o fs st args).cleanup
        = initialCleanup fs args.extra
          ++ (fs.children args.folder).1.map (dirArchive args.folder)
      ∧ (grade o fs st args).results.map Prod.fst
        = (fs.children args.folder).1.map (fun d => args.folder ++ "/" ++ d)
          ++ (fs.children args.folder).2.map (fun f => args.folder ++ "/" ++ f)
      ∧ (∀ e2, effectiveExtra fs args.extra = some e2 →
          extraAppliedAfter e2 (grade o fs st args).log)
      ∧ putsFixedHome (grade o fs st args).log := by
  have heq := grade_valid_eq o fs st args hf hx (fun e _ => h.2.2.2 e)
  rw [heq]
  exact gradeBody_noRaise o h fs st args.folder args.image
    (effectiveExtra fs args.extra) (initialCleanup fs args.extra)

/-- Helper: a completed file loop never touches the cleanup list. -/
lemma processFiles_ok_cleanup (o : Oracle) (dirpath image : String)
    (extra : Option String) :
    ∀ (fsL : List String) (acc acc' : Acc),
      processFiles o dirpath image extra fsL acc = .ok acc' →
        acc'.cleanup = acc.cleanup := by
  intro fsL
  induction fsL with
  | nil =>
    intro acc acc' hh
    simp [processFiles] at hh
    rw [← hh]
  | cons f rest ih =>
    intro acc acc' hh
    simp only [processFiles] at hh
    cases hout : (create_container o acc.state dirpath (dirpath ++ "/" ++ f)
        image extra).2.2 with
    | raised e => simp [hout] at hh
    | ok =>
      simp only [hout] at hh
      have h3 := ih _ acc' hh
      exact h3
    | skippedMismatch =>
      simp only [hout] at hh
      have h3 := ih _ acc' hh
      exact h3
    | skippedRemovalFailed =>
      simp only [hout] at hh
      have h3 := ih _ acc' hh
      exact h3

/-- Helper: a completed directory loop appends exactly one archive per
directory to the cleanup list. -/
lemma processDirs_ok_cleanup (o : Oracle) (dirpath image : String)
    (extra : Option String) :
    ∀ (ds : List String) (acc acc' : Acc),
      processDirs o dirpath image extra ds acc = .ok acc' →
        acc'.cleanup = acc.cleanup ++ ds.map (dirArchive dirpath) := by
  intro ds
  induction ds with
  | nil =>
    intro acc acc' hh
    simp [processDirs] at hh
    rw [← hh]
    simp
  | cons d rest ih =>
    intro acc acc' hh
    simp only [processDirs] at hh
    by_cases hmk : o.makeGzipOk (dirpath ++ "/" ++ d) = true
    · simp only [hmk, if_true] at hh
      cases hout : (create_container o acc.state dirpath (dirArchive dirpath d)
          image extra).2.2 with
      | raised e => simp [hout] at hh
      | ok =>
        simp only [hout] at hh
        rw [ih _ acc' hh]
        simp
      | skippedMismatch =>
        simp only [hout] at hh
        rw [ih _ acc' hh]
        simp
      | skippedRemovalFailed =>
        simp only [hout] at hh
        rw [ih _ acc' hh]
        simp
    · have hmk' : o.makeGzipOk (dirpath ++ "/" ++ d) = false := by
        revert hmk
        cases o.makeGzipOk (dirpath ++ "/" ++ d) <;> simp
      simp [hmk'] at hh

/-- Helper: every file a completed `gradeBody` deletes is either an
initial cleanup obligation or the archive packaged for one of the batch's
directory submissions. -/
lemma gradeBody_removed (o : Oracle) (fs : FS) (st0 : DockerState)
    (folder image : String) (extra : Option String) (cleanup0 : List String) :
    ∀ p ∈ (gradeBody o fs st0 folder image extra cleanup0).removed,
      p ∈ cleanup0 ∨ ∃ d ∈ (fs.children folder).1, p = dirArchive folder d := by
  intro p hp
  cases hd : processDirs o folder image extra (fs.children folder).1
      ⟨st0, cleanup0, SubLog.empty, []⟩ with
  | error pe => simp [gradeBody, hd] at hp
  | ok acc1 =>
    cases hfr : processFiles o folder image extra (fs.children folder).2 acc1 with
    | error pe => simp [gradeBody, hd, hfr] at hp
    | ok acc2 =>
      have h1 := processDirs_ok_cleanup o folder image extra _ _ _ hd
      have h2 := processFiles_ok_cleanup o folder image extra _ _ _ hfr
      simp only [gradeBody, hd, hfr] at hp
      rw [h2, h1] at hp
      rcases List.mem_append.mp hp with h | h
      · exact Or.inl h
      · rcases List.mem_map.mp h with ⟨d, hd', rfl⟩
        exact Or.inr ⟨d, hd', rfl⟩

/-- C10: every file the end-of-run cleanup deletes is an artifact the run
itself created — the wrapped extra archive (an initial cleanup obligation)
or the archive packaged for one of the batch's directory submissions — and
consequently any path that is neither of those (submission sources,
file-kind submissions passed through, a gzip extra supplied by the caller)
is never deleted by the orchestrator. -/
theorem cleanup_frame (o : Oracle) (fs : FS) (st : DockerState) (args : Args) :
    (∀ p ∈ (grade o fs st args).removed,
      p ∈ initialCleanup fs args.extra
        ∨ ∃ d ∈ (fs.children args.folder).1, p = dirArchive args.folder d)
      ∧ ∀ q, q ∉ initialCleanup fs args.extra →
          (∀ d ∈ (fs.children args.folder).1, q ≠ dirArchive args.folder d) →
          q ∉ (grade o fs st args).removed := by
  have hmain : ∀ p ∈ (grade o fs st args).removed,
      p ∈ initialCleanup fs args.extra
        ∨ ∃ d ∈ (fs.children args.folder).1, p = dirArchive args.folder d := by
    intro p hp
    by_cases hf : fs.isDir args.folder = false
    · simp [grade, hf] at hp
    · have hf' : fs.isDir args.folder = true := by
        revert hf
        cases fs.isDir args.folder <;> simp
      cases hxe : args.extra with
      | none =>
        have hg : grade o fs st args
            = gradeBody o fs st args.folder args.image none [] := by
          simp [grade, hf', hxe]
        rw [hg] at hp
        rcases gradeBody_removed o fs st args.folder args.image none [] p hp with h | h
        · simp at h
        · exact Or.inr h
      | some e =>
        by_cases hfile : fs.isFile e = false
        · simp [grade, hf', hxe, hfile] at hp
        · have hfile' : fs.isFile e = true := by
            revert hfile
            cases fs.isFile e <;> simp
          by_cases hb : (fs.isDir e || !(fs.isGzip e)) = true
          · by_cases hmk : o.makeGzipOk e = true
            · have hg : grade o fs st args = gradeBody o fs st args.folder
                  args.image (some (make_gzip e none)) [make_gzip e none] := by
                simp [grade, hf', hxe, hfile', hb, hmk]
              rw [hg] at hp
              rcases gradeBody_removed o fs st args.folder args.image
                  (some (make_gzip e none)) [make_gzip e none] p hp with h | h
              · left
                simp [initialCleanup, hxe, hb]
                simpa using h
              · exact Or.inr h
            · have hmk' : o.makeGzipOk e = false := by
                revert hmk
                cases o.makeGzipOk e <;> simp
              simp [grade, hf', hxe, hfile', hb, hmk'] at hp
          · have hb' : (fs.isDir e || !(fs.isGzip e)) = false := by
              revert hb
              cases fs.isDir e <;> cases fs.isGzip e <;> simp
            have hg : grade o fs st args
                = gradeBody o fs st args.folder args.image (some e) [] := by
              simp [grade, hf', hxe, hfile', hb']
            rw [hg] at hp
            rcases gradeBody_removed o fs st args.folder args.image
                (some e) [] p hp with h | h
            · simp at h
            · exact Or.inr h
  refine ⟨hmain, ?_⟩
  intro q h1 h2 hq
  rcases hmain q hq with h | ⟨d, hd, rfl⟩
  · exact h1 h
  · exact h2 d hd rfl

/-- A filesystem whose valid batch folder `/hw` holds the directory
submissions `a_submit` and `b_submit` and nothing else. -/
def fsTwoDirs : FS :=
  ⟨fun p => p == "/hw", fun _ => false,
    fun p => if p == "/hw" then (["a_submit", "b_submit"], []) else ([], []),
    fun _ => false⟩

/-- Witness for C10: the one file a successful run over `/hw` deletes is
accounted for as a directory-submission archive. -/
theorem cleanup_frame_witness :
    "/tmp/grader/a.tar.gz" ∈ (grade oAll fsTwoDirs ⟨[]⟩ ⟨"/hw", "img", none⟩).removed
      ∧ ("/tmp/grader/a.tar.gz" ∈ initialCleanup fsTwoDirs none
          ∨ ∃ d ∈ (fsTwoDirs.children "/hw").1,
              "/tmp/grader/a.tar.gz" = dirArchive "/hw" d) :=
  ⟨by decide,
    (cleanup_frame oAll fsTwoDirs ⟨[]⟩ ⟨"/hw", "img", none⟩).1
      "/tmp/grader/a.tar.gz" (by decide)⟩

/-- An oracle on which reading the gzip archive `/tmp/grader/a.tar.gz`
raises and every other call succeeds. -/
def oReadFail : Oracle :=
  ⟨fun _ => true, fun _ => true, fun p => !(p == "/tmp/grader/a.tar.gz"),
    fun _ _ => true, fun _ => true, fun n => n⟩

/-- C2 counterexample: over the batch `/hw` with directory submissions
`a_submit` and `b_submit`, a failure while extracting `a_submit`'s archive
propagates out of `grade`: `b_submit` is never processed (only one
per-submission result exists) and the end-of-batch deletion never runs —
the accumulated temporary archive stays on disk. -/
theorem abort_on_extraction_counterexample :
    (grade oReadFail fsTwoDirs ⟨[]⟩ ⟨"/hw", "img", none⟩).outcome
        = .raised (.archiveReadFailed "/tmp/grader/a.tar.gz")
      ∧ (grade oReadFail fsTwoDirs ⟨[]⟩ ⟨"/hw", "img", none⟩).results.map Prod.fst
        = ["/hw/a_submit"]
      ∧ (grade oReadFail fsTwoDirs ⟨[]⟩ ⟨"/hw", "img", none⟩).cleanup
        = ["/tmp/grader/a.tar.gz"]
      ∧ (grade oReadFail fsTwoDirs ⟨[]⟩ ⟨"/hw", "img", none⟩).removed = [] := by
  refine ⟨by decide, by decide, by decide, by decide⟩

/-- C2 as amended: image-mismatch skips and container-removal failures are
contained at the submission boundary and never abort the batch — under an
oracle on which no call raises (removal may still fail arbitrarily and any
containers may pre-exist), every submission is processed and the cleanup
deletion runs over the whole accumulated archive list.  Packaging,
creation, archive-read and extraction failures, however, propagate as
exceptions, abort the remaining submissions, and skip the cleanup (see the
counterexample). -/
theorem batch_isolation_without_exceptions (o : Oracle) (fs : FS) (st : DockerState)
    (args : Args) (h : o.NoRaise) (hf : fs.isDir args.folder = true)
    (hx : ∀ e, args.extra = some e → fs.isFile e = true) :
    (grade o fs st args).outcome = .done
      ∧ (grade o fs st args).removed = (grade o fs st args).cleanup
      ∧ (grade o fs st args).results.map Prod.fst
        = (fs.children args.folder).1.map (fun d => args.folder ++ "/" ++ d)
          ++ (fs.children args.folder).2.map (fun f => args.folder ++ "/" ++ f) := by
  obtain ⟨h1, h2, h3, h4, h5, h6⟩ := grade_noRaise o h fs st args hf hx
  exact ⟨h1, h2, h4⟩

/-- Witness for the amended C2: with every removal failing (`oRemoveFail`)
the run still completes, deletes its accumulated archives, and reports a
result for both submissions of `/hw`. -/
theorem batch_isolation_without_exceptions_witness :
    (grade oRemoveFail fsTwoDirs ⟨[]⟩ ⟨"/hw", "img", none⟩).outcome = .done
      ∧ (grade oRemoveFail fsTwoDirs ⟨[]⟩ ⟨"/hw", "img", none⟩).removed
        = (grade oRemoveFail fsTwoDirs ⟨[]⟩ ⟨"/hw", "img", none⟩).cleanup
      ∧ (grade oRemoveFail fsTwoDirs ⟨[]⟩ ⟨"/hw", "img", none⟩).results.map Prod.fst
        = (fsTwoDirs.children "/hw").1.map (fun d => "/hw" ++ "/" ++ d)
          ++ (fsTwoDirs.children "/hw").2.map (fun f => "/hw" ++ "/" ++ f) :=
  batch_isolation_without_exceptions oRemoveFail fsTwoDirs ⟨[]⟩ ⟨"/hw", "img", none⟩
    ⟨fun _ => rfl, fun _ => rfl, fun _ _ => rfl, fun _ => rfl⟩ (by decide)
    (fun _ he => Option.noConfusion he)

/-- C8: an invalid batch folder (nonexistent or not a directory) aborts
the whole run before any container work — the state is returned untouched
with an empty effect log — and on valid inputs under a non-raising oracle
the run processes exactly the immediate child directories followed by the
immediate child files of the batch folder, one level deep. -/
theorem scan_one_level_and_abort (o : Oracle) (fs : FS) (st : DockerState)
    (args : Args) :
    (fs.isDir args.folder = false →
      grade o fs st args = ⟨.invalidFolder, st, SubLog.empty, [], [], []⟩)
      ∧ (o.NoRaise → fs.isDir args.folder = true →
          (∀ e, args.extra = some e → fs.isFile e = true) →
          (grade o fs st args).results.map Prod.fst
            = (fs.children args.folder).1.map (fun d => args.folder ++ "/" ++ d)
              ++ (fs.children args.folder).2.map (fun f => args.folder ++ "/" ++ f)) := by
  constructor
  · intro hbad
    simp [grade, hbad]
  · intro h hf hx
    exact (grade_noRaise o h fs st args hf hx).2.2.2.1

/-- Witness for C8: a missing folder aborts with no effects; the valid
folder `/hw` yields exactly its two immediate children, in order. -/
theorem scan_one_level_and_abort_witness :
    grade oAll fsTwoDirs ⟨[]⟩ ⟨"/nope", "img", none⟩
        = ⟨.invalidFolder, ⟨[]⟩, SubLog.empty, [], [], []⟩
      ∧ (grade oAll fsTwoDirs ⟨[]⟩ ⟨"/hw", "img", none⟩).results.map Prod.fst
        = (fsTwoDirs.children "/hw").1.map (fun d => "/hw" ++ "/" ++ d)
          ++ (fsTwoDirs.children "/hw").2.map (fun f => "/hw" ++ "/" ++ f) :=
  ⟨(scan_one_level_and_abort oAll fsTwoDirs ⟨[]⟩ ⟨"/nope", "img", none⟩).1 (by decide),
    (scan_one_level_and_abort oAll fsTwoDirs ⟨[]⟩ ⟨"/hw", "img", none⟩).2
      ⟨fun _ => rfl, fun _ => rfl, fun _ _ => rfl, fun _ => rfl⟩ (by decide)
      (fun _ he => Option.noConfusion he)⟩

/-- A filesystem whose valid batch folder `/hw` holds the single file
submission `s1.gz` and whose extra path `/notes.txt` is a plain (non-gzip)
regular file. -/
def fsExtraPlain : FS :=
  ⟨fun p => p == "/hw", fun p => p == "/notes.txt",
    fun p => if p == "/hw" then ([], ["s1.gz"]) else ([], []),
    fun _ => false⟩

/-- An oracle on which extracting the wrapped extra archive into any
container raises and every other call succeeds. -/
def oPutExtraFail : Oracle :=
  ⟨fun _ => true, fun _ => true, fun _ => true,
    fun _ p => !(p == "/tmp/grader/notes.txt.tar.gz"), fun _ => true, fun n => n⟩

/-- C5 counterexample: the plain extra `/notes.txt` is wrapped into one
temporary archive, but when its extraction into the first created
container fails, the run aborts: the container `hw_s1` created by this
run never receives the extra payload (its only `put_archive` record is its
own submission archive) and the temporary archive is never deleted —
refuting "applied to every created container" and "deleted exactly once at
end of run". -/
theorem extra_archive_left_behind_counterexample :
    (grade oPutExtraFail fsExtraPlain ⟨[]⟩ ⟨"/hw", "img", some "/notes.txt"⟩).outcome
        = .raised (.extractionFailed "/tmp/grader/notes.txt.tar.gz")
      ∧ (grade oPutExtraFail fsExtraPlain ⟨[]⟩
          ⟨"/hw", "img", some "/notes.txt"⟩).log.createdIds = ["hw_s1"]
      ∧ (grade oPutExtraFail fsExtraPlain ⟨[]⟩
          ⟨"/hw", "img", some "/notes.txt"⟩).log.puts
        = [("hw_s1", "/home/", "/hw/s1.gz")]
      ∧ (grade oPutExtraFail fsExtraPlain ⟨[]⟩
          ⟨"/hw", "img", some "/notes.txt"⟩).cleanup = ["/tmp/grader/notes.txt.tar.gz"]
      ∧ (grade oPutExtraFail fsExtraPlain ⟨[]⟩
          ⟨"/hw", "img", some "/notes.txt"⟩).removed = [] := by
  refine ⟨by decide, by decide, by decide, by decide, by decide⟩

/-- C5 as amended: a non-gzip extra file is wrapped into exactly one
temporary archive before any submission is processed (it heads the cleanup
list), and on a run where no call raises it is extracted into the fixed
home directory `/home/` of every container the run created, after that
container's own submission archive (which goes into the same `/home/` —
every `put_archive` of the run targets it), and deleted exactly once at
the end; a gzip extra file is passed through unchanged, never added to the
cleanup set, and applied to every created container in the same way.  When
a submission raises, the run aborts and the wrapped archive may be left on
disk and unapplied (see the counterexample). -/
theorem extra_payload_handling (o : Oracle) (fs : FS) (st : DockerState)
    (args : Args) (e : String) (h : o.NoRaise) (hf : fs.isDir args.folder = true)
    (hxe : args.extra = some e) (hfile : fs.isFile e = true) :
    (fs.isGzip e = false →
        (grade o fs st args).cleanup
          = make_gzip e none :: (fs.children args.folder).1.map (dirArchive args.folder)
        ∧ (grade o fs st args).removed = (grade o fs st args).cleanup
        ∧ (make_gzip e none ∉ (fs.children args.folder).1.map (dirArchive args.folder) →
            (grade o fs st args).removed.count (make_gzip e none) = 1)
        ∧ extraAppliedAfter (make_gzip e none) (grade o fs st args).log
        ∧ putsFixedHome (grade o fs st args).log)
      ∧ (fs.isGzip e = true → fs.isDir e = false →
          (grade o fs st args).cleanup
            = (fs.children args.folder).1.map (dirArchive args.folder)
          ∧ extraAppliedAfter e (grade o fs st args).log
          ∧ putsFixedHome (grade o fs st args).log) := by
  have hx : ∀ e', args.extra = some e' → fs.isFile e' = true := by
    intro e' he'
    rw [hxe] at he'
    injection he' with h'
    rw [← h']
    exact hfile
  obtain ⟨h1, h2, h3, h4, h5, h6⟩ := grade_noRaise o h fs st args hf hx
  constructor
  · intro hgz
    have heff : effectiveExtra fs args.extra = some (make_gzip e none) := by
      simp [effectiveExtra, hxe, hgz]
    have hinit : initialCleanup fs args.extra = [make_gzip e none] := by
      simp [initialCleanup, hxe, hgz]
    have hcl : (grade o fs st args).cleanup
        = make_gzip e none
          :: (fs.children args.folder).1.map (dirArchive args.folder) := by
      rw [h3, hinit]
      simp
    refine ⟨hcl, h2, ?_, h5 (make_gzip e none) heff, h6⟩
    intro hnm
    rw [h2, hcl, List.count_cons_self, List.count_eq_zero_of_not_mem hnm]
  · intro hgz hdir
    have heff : effectiveExtra fs args.extra = some e := by
      simp [effectiveExtra, hxe, hgz, hdir]
    have hinit : initialCleanup fs args.extra = [] := by
      simp [initialCleanup, hxe, hgz, hdir]
    have hcl : (grade o fs st args).cleanup
        = (fs.children args.folder).1.map (dirArchive args.folder) := by
      rw [h3, hinit]
      simp
    exact ⟨hcl, h5 e heff, h6⟩

/-- Witness for the amended C5 on the plain extra `/notes.txt` with a
fully succeeding oracle: the wrapped archive heads the cleanup list, the
run deletes it exactly once, and the created container received it in
`/home/` right after its own submission archive. -/
theorem extra_payload_handling_witness :
    (grade oAll fsExtraPlain ⟨[]⟩ ⟨"/hw", "img", some "/notes.txt"⟩).cleanup
        = make_gzip "/notes.txt" none
          :: (fsExtraPlain.children "/hw").1.map (dirArchive "/hw")
      ∧ (grade oAll fsExtraPlain ⟨[]⟩ ⟨"/hw", "img", some "/notes.txt"⟩).removed
        = (grade oAll fsExtraPlain ⟨[]⟩ ⟨"/hw", "img", some "/notes.txt"⟩).cleanup
      ∧ (make_gzip "/notes.txt" none
            ∉ (fsExtraPlain.children "/hw").1.map (dirArchive "/hw") →
          (grade oAll fsExtraPlain ⟨[]⟩
            ⟨"/hw", "img", some "/notes.txt"⟩).removed.count
              (make_gzip "/notes.txt" none) = 1)
      ∧ extraAppliedAfter (make_gzip "/notes.txt" none)
          (grade oAll fsExtraPlain ⟨[]⟩ ⟨"/hw", "img", some "/notes.txt"⟩).log
      ∧ putsFixedHome
          (grade oAll fsExtraPlain ⟨[]⟩ ⟨"/hw", "img", some "/notes.txt"⟩).log :=
  (extra_payload_handling oAll fsExtraPlain ⟨[]⟩ ⟨"/hw", "img", some "/notes.txt"⟩
      "/notes.txt" ⟨fun _ => rfl, fun _ => rfl, fun _ _ => rfl, fun _ => rfl⟩
      (by decide) rfl (by decide)).1 (by decide)

end Grader
